import Mathlib

/-!
# Verification of the typst-lsp source cache and compiler bridge

Shallow embedding of the incremental source-file cache (`src/workspace/source_manager.rs`,
`src/workspace/source.rs`), the `World` bridge (`src/lsp_typst_boundary/world.rs`) and the
compiler-invocation glue (`src/server/typst_compiler.rs`) of the typst-lsp server, together
with theorems settling the specification claims about them.

The embedding is polymorphic in the URI type `U` (the Rust code uses `lsp_types::Url`,
an external collaborator); the file system is passed explicitly as a value of type `FS U`
modelling `Url::to_file_path` plus `tokio::fs::read_to_string`.  Machine integers appear
as `Nat` with explicit reduction `% 65536` at the one place the source truncates
(`SourceId(ids.len() as u16)`).
-/

/-- `typst::diag::FileError`, restricted to the kinds the spec names
(not-found / permission-denied / other). -/
inductive FileError where
  | notFound (path : String)
  | accessDenied
  | other
  deriving DecidableEq, Repr

/-- The compiler-facing source representation (`typst::syntax::Source`), an external
collaborator: we keep only the id passed to `TypstSource::new` and the text. -/
structure TypstSource where
  id : Nat
  text : String
  deriving DecidableEq, Repr

/-- The reserved id used by the typst library for detached sources (`u16::MAX`). -/
def detachedId : Nat := 65535

/-- `TypstSource::detached(text)`: a source not belonging to any file. -/
def TypstSource.detached (text : String) : TypstSource :=
  ⟨detachedId, text⟩

/-- The file-system collaborator: `Url::to_file_path` (fallible) composed with
`tokio::fs::read_to_string` (fallible).  `none` stands for any failure. -/
structure FS (U : Type) where
  toFilePath : U → Option String
  readToString : String → Option String

/-- `workspace::source::Source`: one file's URI plus its compiler-facing form. -/
structure Source (U : Type) where
  uri : U
  inner : TypstSource
  deriving DecidableEq, Repr

/-- `Source::new(id, uri, text)` (the derived `typst_path` is a function of the URI and
carries no extra information, so it is not stored). -/
def Source.new (id : Nat) (uri : U) (text : String) : Source U :=
  ⟨uri, ⟨id, text⟩⟩

/-- `Source::new_from_file(id, uri)`: resolve the URI to a path, read the file, build the
source.  Both failure paths use `.map_err(|_| FileError::Other)` in the code, so every
failure yields `FileError::other`. -/
def Source.new_from_file (fs : FS U) (id : Nat) (uri : U) : Except FileError (Source U) :=
  match fs.toFilePath uri with
  | none => .error .other
  | some path =>
    match fs.readToString path with
    | none => .error .other
    | some text => .ok (Source.new id uri text)

/-- `source_manager::CachedSource`: the per-slot cache state. -/
inductive CachedSource (U : Type) where
  /-- Currently open in the editor (`textDocument/didOpen` seen, no `didClose`). -/
  | Open (source : Source U)
  /-- Not open, but no file-change notification since the source was known correct. -/
  | ClosedUnmodified (source : Source U)
  /-- Not open, and changed on disk since the last associated source was correct. -/
  | ClosedModified (uri : U)
  deriving DecidableEq, Repr

/-- `CachedSource::new_cached(id, uri)`. -/
def CachedSource.new_cached (fs : FS U) (id : Nat) (uri : U) :
    Except FileError (CachedSource U) :=
  (Source.new_from_file fs id uri).map CachedSource.ClosedUnmodified

/-- `CachedSource::new_open(id, uri, text)`. -/
def CachedSource.new_open (id : Nat) (uri : U) (text : String) : CachedSource U :=
  .Open (Source.new id uri text)

/-- `CachedSource::is_open`. -/
def CachedSource.is_open : CachedSource U → Bool
  | .Open _ => true
  | _ => false

/-- `CachedSource::get_cached_source`. -/
def CachedSource.get_cached_source : CachedSource U → Option (Source U)
  | .Open source => some source
  | .ClosedUnmodified source => some source
  | .ClosedModified _ => none

/-- `CachedSource::get_mut_cached_source` (identical dispatch; grants edit access). -/
def CachedSource.get_mut_cached_source : CachedSource U → Option (Source U)
  | .Open source => some source
  | .ClosedUnmodified source => some source
  | .ClosedModified _ => none

/-- `CachedSource::take_cached_source`. -/
def CachedSource.take_cached_source : CachedSource U → Option (Source U)
  | .Open source => some source
  | .ClosedUnmodified source => some source
  | .ClosedModified _ => none

/-- `CachedSource::cache(&mut self, id)`: reload and replace only if `ClosedModified`;
on a load error the `?` fires before `mem::replace`, so the slot keeps its old value
(here: no replacement value is produced). -/
def CachedSource.cache (fs : FS U) (id : Nat) :
    CachedSource U → Except FileError (CachedSource U)
  | .ClosedModified uri => CachedSource.new_cached fs id uri
  | s => .ok s

/-- `source_manager::SourceManager`: the `HashMap<Url, SourceId>` is embedded as its
lookup function plus its size (`ids.len()`); the `AppendOnlyVec<RwLock<CachedSource>>`
as a list indexed by slot position. -/
structure SourceManager (U : Type) where
  uriToId : U → Option Nat
  idCount : Nat
  sources : List (CachedSource U)

/-- `SourceManager::default()`. -/
def SourceManager.empty : SourceManager U :=
  ⟨fun _ => none, 0, []⟩

/-- How `get_source`/`get_mut_source` can fail: a propagated `FileError`, an
out-of-bounds slot index (a panic on `self.sources[id]` in Rust, unreachable for ids the
manager handed out), or the `unreachable!()` arm taken when a just-cached slot yields no
source. -/
inductive GetErr where
  | file (e : FileError)
  | invalidId
  | unreachableBranch
  deriving DecidableEq, Repr

/-- `SourceManager::get_id(uri)`: existing id if known, otherwise load from disk and
commit `ClosedUnmodified` under the table lock.  `next_id` is `SourceId(ids.len() as u16)`,
hence the `% 65536`.  On a load failure the `?` fires before the push and the insert, so
no state changes. -/
def SourceManager.get_id (fs : FS U) [DecidableEq U] (m : SourceManager U) (uri : U) :
    Except FileError (Nat × SourceManager U) :=
  match m.uriToId uri with
  | some id => .ok (id, m)
  | none =>
    match Source.new_from_file fs (m.idCount % 65536) uri with
    | .error e => .error e
    | .ok source =>
      .ok (m.idCount % 65536,
        { uriToId := fun u => if u = uri then some (m.idCount % 65536) else m.uriToId u
          idCount := m.idCount + 1
          sources := m.sources ++ [CachedSource.ClosedUnmodified source] })

/-- `SourceManager::get_source(id)`: lock the slot, `cache(id)?`, then downgrade to the
cached source, the impossible miss being `unreachable!()`. -/
def SourceManager.get_source (fs : FS U) (m : SourceManager U) (id : Nat) :
    Except GetErr (Source U × SourceManager U) :=
  match m.sources.get? id with
  | none => .error .invalidId
  | some slot =>
    match CachedSource.cache fs id slot with
    | .error e => .error (.file e)
    | .ok slot' =>
      match slot'.get_cached_source with
      | some source => .ok (source, { m with sources := m.sources.set id slot' })
      | none => .error .unreachableBranch

/-- `SourceManager::get_mut_source(id)`: same caching guarantee, via
`get_mut_cached_source`. -/
def SourceManager.get_mut_source (fs : FS U) (m : SourceManager U) (id : Nat) :
    Except GetErr (Source U × SourceManager U) :=
  match m.sources.get? id with
  | none => .error .invalidId
  | some slot =>
    match CachedSource.cache fs id slot with
    | .error e => .error (.file e)
    | .ok slot' =>
      match slot'.get_mut_cached_source with
      | some source => .ok (source, { m with sources := m.sources.set id slot' })
      | none => .error .unreachableBranch

/-- `SourceManager::open(uri, text)`: allocate and push an `Open` slot if the URI is
unknown (then return `self.get_source(next_id).await.unwrap()`, whose failure is a panic,
modelled as the error branch); otherwise overwrite the existing slot with
`CachedSource::new_open(id, uri, text)` and downgrade to its cached source. -/
def SourceManager.open_ (fs : FS U) [DecidableEq U] (m : SourceManager U) (uri : U)
    (text : String) : Except GetErr (Source U × Nat × SourceManager U) :=
  match m.uriToId uri with
  | none =>
    match SourceManager.get_source fs
        { uriToId := fun u => if u = uri then some (m.idCount % 65536) else m.uriToId u
          idCount := m.idCount + 1
          sources := m.sources ++ [CachedSource.new_open (m.idCount % 65536) uri text] }
        (m.idCount % 65536) with
    | .ok (source, m'') => .ok (source, m.idCount % 65536, m'')
    | .error e => .error e
  | some id =>
    match (CachedSource.new_open id uri text).get_cached_source with
    | some source =>
      .ok (source, id, { m with sources := m.sources.set id (CachedSource.new_open id uri text) })
    | none => .error .unreachableBranch

/-- `SourceManager::close(uri)`: `get_id` first (registering the URI, loading from disk,
if it is unknown; early return on its error), then `mem::replace` the slot with
`ClosedModified(uri)`, and, when the old state held a cached source, write it back as
`ClosedUnmodified`.  For ids the manager handed out the slot index is in range; the
out-of-range case (a panic in Rust) is modelled as the identity. -/
def SourceManager.close (fs : FS U) [DecidableEq U] (m : SourceManager U) (uri : U) :
    SourceManager U :=
  match SourceManager.get_id fs m uri with
  | .error _ => m
  | .ok (id, m₁) =>
    match m₁.sources.get? id with
    | none => m₁
    | some old =>
      let m₂ : SourceManager U :=
        { m₁ with sources := m₁.sources.set id (CachedSource.ClosedModified uri) }
      match old.take_cached_source with
      | none => m₂
      | some source =>
        { m₂ with sources := m₂.sources.set id (CachedSource.ClosedUnmodified source) }

/-- Modelled from the spec: the file-watch handler (`server/watch.rs`) is not among the
provided sources.  Per the spec, `mark_changed(uri)` (from a file-watch signal) forces
`ClosedModified` for files that are not currently Open; Open files are
editor-authoritative and are not affected. -/
def SourceManager.mark_changed [DecidableEq U] (m : SourceManager U) (uri : U) :
    SourceManager U :=
  match m.uriToId uri with
  | none => m
  | some id =>
    match m.sources.get? id with
    | none => m
    | some slot =>
      if slot.is_open then m
      else { m with sources := m.sources.set id (CachedSource.ClosedModified uri) }

/-- `lsp_types::MessageType`, as used by `client.log_message`. -/
inductive MessageType where
  | ERROR
  | WARNING
  | INFO
  | LOG
  deriving DecidableEq, Repr

/-- One `client.log_message` call on the out-of-band logging channel. -/
structure LogMessage where
  type : MessageType
  message : String
  deriving DecidableEq, Repr

/-- `workspace::Workspace`, restricted to the fields the bridge claims touch: the
placeholder detached source.  Fonts, resources, the standard library and the client
handle are external collaborators. -/
structure Workspace where
  detached_source : TypstSource
  deriving DecidableEq, Repr

/-- The `detached_source` field as set by `Workspace::with_client`:
`TypstSource::detached("")`. -/
def Workspace.with_client : Workspace :=
  ⟨TypstSource.detached ""⟩

/-- `lsp_typst_boundary::world::WorkspaceWorld`: the workspace plus the write guard on
its `SourceManager`. -/
structure WorkspaceWorld (U : Type) where
  workspace : Workspace
  sources : SourceManager U

/-- The panic message of `WorkspaceWorld::main` (punctuation simplified). -/
def mainErrorMessage : String :=
  "should not invoke World main on a Workspace because there is no reasonable default context"

/-- `<WorkspaceWorld as World>::main`: unconditionally
`panic!("should not invoke ...")`; the panic is modelled as the error value, so no
source is ever returned. -/
def WorkspaceWorld.main (_w : WorkspaceWorld U) : Except String TypstSource :=
  .error mainErrorMessage

/-- `<WorkspaceWorld as World>::source(id)`: block on `get_source`; on success return the
cached compiler-facing source (and the possibly cache-filled manager); on failure log an
ERROR through the client and return the workspace's `detached_source`.  The result is
(returned source, manager after the call, log messages emitted). -/
def WorkspaceWorld.source (fs : FS U) (w : WorkspaceWorld U) (id : Nat) :
    TypstSource × SourceManager U × List LogMessage :=
  match SourceManager.get_source fs w.sources id with
  | .ok (source, m') => (source.inner, m', [])
  | .error _ =>
    (w.workspace.detached_source, w.sources,
      [⟨.ERROR, "unable to get source id " ++ toString id ++ " because an error occurred"⟩])

/-- The kind of pass the compiler-invocation glue runs. -/
inductive PassKind where
  | compilePass
  | evalPass
  deriving DecidableEq, Repr

/-- Observable events of one compiler-invocation pass, in program order. -/
inductive PassEvent where
  /-- `self.workspace.get_world().await` -/
  | acquireWorld
  /-- the `compile`/`typst::eval::eval` call inside `block_in_place` -/
  | runPass (kind : PassKind) (succeeded : Bool)
  /-- the `World` snapshot guard is released (`drop(world)` or end of scope) -/
  | dropWorld
  /-- `typst_to_lsp::source_errors_to_diagnostics(...)` -/
  | convertDiagnostics
  /-- `comemo::evict(maxAge)` -/
  | evict (maxAge : Nat)
  deriving DecidableEq, Repr

/-- The event trace of `TypstServer::compile_source`: acquire the world, run the pass,
`drop(world)`, convert diagnostics, `comemo::evict(30)`. -/
def compile_source_events (succeeded : Bool) : List PassEvent :=
  [.acquireWorld, .runPass .compilePass succeeded, .dropWorld, .convertDiagnostics,
    .evict 30]

/-- The event trace of `TypstServer::eval_source`: acquire the world, run the pass,
convert diagnostics, `comemo::evict(30)`; the world guard is dropped only when the
function scope ends, after the eviction. -/
def eval_source_events (succeeded : Bool) : List PassEvent :=
  [.acquireWorld, .runPass .evalPass succeeded, .convertDiagnostics, .evict 30,
    .dropWorld]

/-- The eviction events of a trace. -/
def evictEvents (t : List PassEvent) : List PassEvent :=
  t.filter fun e => match e with | .evict _ => true | _ => false

/-- `true` iff no eviction event occurs before the snapshot release event. -/
def evictsOnlyAfterRelease : List PassEvent → Bool
  | [] => true
  | .dropWorld :: _ => true
  | .evict _ :: _ => false
  | _ :: rest => evictsOnlyAfterRelease rest

/-- One mutating manager operation, for stating properties of operation sequences. -/
inductive Op (U : Type) where
  | getId (uri : U)
  | openOp (uri : U) (text : String)

/-- Apply one operation.  A failed `get_id` leaves the state unchanged (its `?` fires
before any mutation); a failed `open` is a panic in Rust, after which no further state
is observed, modelled as the identity. -/
def applyOp (fs : FS U) [DecidableEq U] (m : SourceManager U) : Op U → SourceManager U
  | .getId uri =>
    match SourceManager.get_id fs m uri with
    | .ok (_, m') => m'
    | .error _ => m
  | .openOp uri text =>
    match SourceManager.open_ fs m uri text with
    | .ok (_, _, m') => m'
    | .error _ => m

/-- Apply a sequence of operations in order. -/
def applyOps (fs : FS U) [DecidableEq U] (m : SourceManager U) (ops : List (Op U)) :
    SourceManager U :=
  ops.foldl (applyOp fs) m

/-- Index of the first occurrence of an element in a list. -/
def firstIdx [DecidableEq U] : List U → U → Option Nat
  | [], _ => none
  | x :: xs, u => if u = x then some 0 else (firstIdx xs u).map (· + 1)

/-- The registration invariant: some list `l` of URIs in registration order explains the
table, each URI being mapped to its rank reduced `% 65536`. -/
def RegInv [DecidableEq U] (m : SourceManager U) : Prop :=
  ∃ l : List U, m.idCount = l.length ∧
    ∀ u, m.uriToId u = (firstIdx l u).map (· % 65536)

/-- `true` iff a `get_source`/`get_mut_source` outcome took an `unreachable!()` arm. -/
def hitsUnreachable : Except GetErr α → Bool
  | .error .unreachableBranch => true
  | _ => false

/-- Setting a list index to the value it already holds is the identity. -/
theorem list_set_same {α : Type} {l : List α} {i : Nat} {v : α}
    (h : l.get? i = some v) : l.set i v = l := by
  induction l generalizing i with
  | nil => simp at h
  | cons x xs ih =>
    cases i with
    | zero => simp_all
    | succ j => simp only [List.get?] at h; simp [ih h]

/-- A slot on which `cache` succeeded holds a cached source. -/
theorem cache_ok_cached {U : Type} {fs : FS U} {id : Nat} {slot slot' : CachedSource U}
    (h : CachedSource.cache fs id slot = .ok slot') :
    (CachedSource.get_cached_source slot').isSome = true ∧
      (CachedSource.get_mut_cached_source slot').isSome = true := by
  cases slot with
  | Open s =>
    simp only [CachedSource.cache] at h
    cases h
    simp [CachedSource.get_cached_source, CachedSource.get_mut_cached_source]
  | ClosedUnmodified s =>
    simp only [CachedSource.cache] at h
    cases h
    simp [CachedSource.get_cached_source, CachedSource.get_mut_cached_source]
  | ClosedModified uri =>
    simp only [CachedSource.cache, CachedSource.new_cached] at h
    cases hf : Source.new_from_file fs id uri with
    | ok src =>
      rw [hf] at h
      simp only [Except.map] at h
      cases h
      simp [CachedSource.get_cached_source, CachedSource.get_mut_cached_source]
    | error e =>
      rw [hf] at h
      simp [Except.map] at h

/-- Claim C6: every invocation of `WorkspaceWorld::main` on the workspace-wide bridge
fails loudly (the `panic!`, modelled as the error value) for every state of the
workspace; it never returns any source. -/
theorem spec_c6_main_always_fails_loudly (U : Type) (w : WorkspaceWorld U) :
    WorkspaceWorld.main w = Except.error mainErrorMessage :=
  rfl

/-- Claim C3, counterexample: in `eval_source` the `comemo::evict(30)` call happens
before the pass's `World` snapshot is released (the guard is dropped only at the end of
the function scope), so the claimed ordering fails on the evaluate pass. -/
theorem spec_c3_counterexample :
    evictsOnlyAfterRelease (eval_source_events true) = false :=
  rfl

/-- Claim C3, amended: every compile pass and every evaluate pass, whether it succeeds
or fails, is followed by exactly one `comemo::evict` call with threshold 30; in
`compile_source` the eviction happens only after the `World` snapshot is released
(`drop(world)` precedes it), but in `eval_source` the eviction happens while the
snapshot is still held, the guard being released only at function end. -/
theorem spec_c3_amended (succeeded : Bool) :
    evictEvents (compile_source_events succeeded) = [PassEvent.evict 30] ∧
    evictEvents (eval_source_events succeeded) = [PassEvent.evict 30] ∧
    evictsOnlyAfterRelease (compile_source_events succeeded) = true ∧
    evictsOnlyAfterRelease (eval_source_events succeeded) = false :=
  ⟨rfl, rfl, rfl, rfl⟩

/-- The `unreachable!()` arm of `get_source` is dead code. -/
theorem get_source_no_unreachable {U : Type} (fs : FS U) (m : SourceManager U) (id : Nat) :
    hitsUnreachable (SourceManager.get_source fs m id) = false := by
  unfold SourceManager.get_source
  split
  · rfl
  · split
    · rfl
    · split
      · rfl
      · rename_i hc x hcs
        have hs := (cache_ok_cached hc).1
        rw [hcs] at hs
        simp at hs

/-- The `unreachable!()` arm of `get_mut_source` is dead code. -/
theorem get_mut_source_no_unreachable {U : Type} (fs : FS U) (m : SourceManager U)
    (id : Nat) :
    hitsUnreachable (SourceManager.get_mut_source fs m id) = false := by
  unfold SourceManager.get_mut_source
  split
  · rfl
  · split
    · rfl
    · split
      · rfl
      · rename_i hc x hcs
        have hs := (cache_ok_cached hc).2
        rw [hcs] at hs
        simp at hs

/-- Claim C10: when `CachedSource::cache` returns `Ok`, the slot holds a cached source
(it is `Open` or `ClosedUnmodified`), so the `unreachable!()` arms of
`SourceManager::get_source` and `SourceManager::get_mut_source` — taken when the
just-cached slot yields no source — can never execute. -/
theorem spec_c10_unreachable_arms_dead (U : Type) (fs : FS U) (m : SourceManager U)
    (id : Nat) (slot slot' : CachedSource U) :
    (CachedSource.cache fs id slot = .ok slot' →
      (CachedSource.get_cached_source slot').isSome = true ∧
        (CachedSource.get_mut_cached_source slot').isSome = true) ∧
    hitsUnreachable (SourceManager.get_source fs m id) = false ∧
    hitsUnreachable (SourceManager.get_mut_source fs m id) = false :=
  ⟨fun h => cache_ok_cached h, get_source_no_unreachable fs m id,
    get_mut_source_no_unreachable fs m id⟩

/-- A file system on which every lookup fails. -/
def fsNoneNat : FS Nat :=
  ⟨fun _ => none, fun _ => none⟩

/-- Witness for C10 at a concrete slot and manager. -/
theorem spec_c10_witness :
    (CachedSource.get_cached_source
        (CachedSource.Open (Source.new 0 (0 : Nat) "t"))).isSome = true ∧
      hitsUnreachable (SourceManager.get_source fsNoneNat SourceManager.empty 0) = false :=
  ⟨((spec_c10_unreachable_arms_dead Nat fsNoneNat SourceManager.empty 0
      (CachedSource.Open (Source.new 0 0 "t"))
      (CachedSource.Open (Source.new 0 0 "t"))).1 rfl).1,
    (spec_c10_unreachable_arms_dead Nat fsNoneNat SourceManager.empty 0
      (CachedSource.Open (Source.new 0 0 "t"))
      (CachedSource.Open (Source.new 0 0 "t"))).2.1⟩

/-- Claim C7: when the cache-fill behind `WorkspaceWorld::source` fails, the query does
not abort: it returns the workspace's detached placeholder source and reports the error
through the out-of-band logging channel (one `MessageType::ERROR` log message); when the
cache-fill succeeds it returns the slot's cached compiler-facing source. -/
theorem spec_c7_source_degrades_not_crashes (U : Type) (fs : FS U) (w : WorkspaceWorld U)
    (id : Nat) :
    (∀ src m', SourceManager.get_source fs w.sources id = .ok (src, m') →
      WorkspaceWorld.source fs w id = (src.inner, m', [])) ∧
    (∀ e, SourceManager.get_source fs w.sources id = .error e →
      WorkspaceWorld.source fs w id =
        (w.workspace.detached_source, w.sources,
          [⟨MessageType.ERROR,
            "unable to get source id " ++ toString id ++ " because an error occurred"⟩])) := by
  constructor
  · intro src m' h
    unfold WorkspaceWorld.source
    rw [h]
  · intro e h
    unfold WorkspaceWorld.source
    rw [h]

/-- A file system on which every lookup fails, over string URIs. -/
def fsNoneStr : FS String :=
  ⟨fun _ => none, fun _ => none⟩

/-- A demonstration world: one slot whose file is presumed stale (`ClosedModified`), so
that a cache-fill on it over `fsNoneStr` fails; the workspace carries the placeholder
source `Workspace::with_client` installs. -/
def c7World : WorkspaceWorld String :=
  ⟨Workspace.with_client,
    ⟨fun u => if u = "file:///a.typ" then some 0 else none, 1,
      [CachedSource.ClosedModified "file:///a.typ"]⟩⟩

/-- Witness for C7: on the concrete stale slot with a failing file system, the query
returns the detached placeholder and one ERROR log message. -/
theorem spec_c7_witness :
    WorkspaceWorld.source fsNoneStr c7World 0 =
      (c7World.workspace.detached_source, c7World.sources,
        [⟨MessageType.ERROR,
          "unable to get source id " ++ toString 0 ++ " because an error occurred"⟩]) :=
  (spec_c7_source_degrades_not_crashes String fsNoneStr c7World 0).2
    (GetErr.file FileError.other) rfl

/-- Claim C8 (the file-watch handler `server/watch.rs` is not among the provided
sources; `mark_changed` is modelled from the spec): for a URI whose slot is
`ClosedUnmodified` or `ClosedModified`, `mark_changed(uri)` forces the slot to
`ClosedModified(uri)`; for a URI whose slot is `Open`, it leaves the manager
unchanged. -/
theorem spec_c8_mark_changed (U : Type) [DecidableEq U] (m : SourceManager U) (uri : U)
    (id : Nat) (slot : CachedSource U) (h1 : m.uriToId uri = some id)
    (h2 : m.sources.get? id = some slot) :
    (∀ src, slot = CachedSource.ClosedUnmodified src →
      SourceManager.mark_changed m uri =
        { m with sources := m.sources.set id (CachedSource.ClosedModified uri) }) ∧
    (∀ u', slot = CachedSource.ClosedModified u' →
      SourceManager.mark_changed m uri =
        { m with sources := m.sources.set id (CachedSource.ClosedModified uri) }) ∧
    (∀ src, slot = CachedSource.Open src → SourceManager.mark_changed m uri = m) := by
  refine ⟨fun src hs => ?_, fun u' hs => ?_, fun src hs => ?_⟩ <;>
    · subst hs
      unfold SourceManager.mark_changed
      rw [h1]
      simp only [h2]
      rfl

/-- A demonstration manager with one `ClosedUnmodified` slot, for the C8 witness. -/
def c8Manager : SourceManager String :=
  ⟨fun u => if u = "file:///a.typ" then some 0 else none, 1,
    [CachedSource.ClosedUnmodified (Source.new 0 "file:///a.typ" "A")]⟩

/-- Witness for C8: on a concrete `ClosedUnmodified` slot, `mark_changed` forces
`ClosedModified`. -/
theorem spec_c8_witness :
    SourceManager.mark_changed c8Manager "file:///a.typ" =
      { c8Manager with
        sources := c8Manager.sources.set 0 (CachedSource.ClosedModified "file:///a.typ") } :=
  (spec_c8_mark_changed String c8Manager "file:///a.typ" 0
      (CachedSource.ClosedUnmodified (Source.new 0 "file:///a.typ" "A")) rfl rfl).1
    (Source.new 0 "file:///a.typ" "A") rfl

/-- Claim C5: `get_source(id)` returns the cached source directly when the slot is
`Open` or `ClosedUnmodified` (leaving the manager unchanged); when the slot is
`ClosedModified` it first reloads the file from disk and promotes the slot to
`ClosedUnmodified` before returning; and if that reload fails, the error is returned to
the caller (the `?` in `cache` fires before any replacement, so the slot stays
`ClosedModified` and no manager state changes). -/
theorem spec_c5_get_source_cache_semantics (U : Type) (fs : FS U) (m : SourceManager U)
    (id : Nat) (slot : CachedSource U) (h : m.sources.get? id = some slot) :
    (∀ src, CachedSource.get_cached_source slot = some src →
      SourceManager.get_source fs m id = .ok (src, m)) ∧
    (∀ uri src, slot = CachedSource.ClosedModified uri →
      Source.new_from_file fs id uri = .ok src →
      SourceManager.get_source fs m id =
        .ok (src, { m with sources := m.sources.set id (CachedSource.ClosedUnmodified src) })) ∧
    (∀ uri e, slot = CachedSource.ClosedModified uri →
      Source.new_from_file fs id uri = .error e →
      SourceManager.get_source fs m id = .error (.file e) ∧
        CachedSource.cache fs id slot = .error e) := by
  refine ⟨fun src hc => ?_, fun uri src hs hf => ?_, fun uri e hs hf => ?_⟩
  · have hcache : CachedSource.cache fs id slot = .ok slot := by
      cases slot with
      | Open s => rfl
      | ClosedUnmodified s => rfl
      | ClosedModified u => simp [CachedSource.get_cached_source] at hc
    have hset : m.sources.set id slot = m.sources := list_set_same h
    unfold SourceManager.get_source
    rw [h]
    simp only [hcache, hc, hset]
  · subst hs
    have hcache : CachedSource.cache fs id (CachedSource.ClosedModified uri) =
        .ok (CachedSource.ClosedUnmodified src) := by
      simp [CachedSource.cache, CachedSource.new_cached, hf, Except.map]
    unfold SourceManager.get_source
    rw [h]
    simp only [hcache, CachedSource.get_cached_source]
  · subst hs
    have hcache : CachedSource.cache fs id (CachedSource.ClosedModified uri) =
        .error e := by
      simp [CachedSource.cache, CachedSource.new_cached, hf, Except.map]
    refine ⟨?_, hcache⟩
    unfold SourceManager.get_source
    rw [h]
    simp only [hcache]

/-- A demonstration manager with an `Open` slot and a `ClosedModified` slot, for the C5
witness. -/
def c5Manager : SourceManager String :=
  ⟨fun u =>
      if u = "file:///a.typ" then some 0
      else if u = "file:///b.typ" then some 1 else none,
    2,
    [CachedSource.Open (Source.new 0 "file:///a.typ" "A"),
      CachedSource.ClosedModified "file:///b.typ"]⟩

/-- Witness for C5: the `Open` slot is returned directly with the manager unchanged, and
the stale slot's failed reload surfaces the file error. -/
theorem spec_c5_witness :
    SourceManager.get_source fsNoneStr c5Manager 0 =
      .ok (Source.new 0 "file:///a.typ" "A", c5Manager) ∧
    SourceManager.get_source fsNoneStr c5Manager 1 = .error (.file .other) :=
  ⟨(spec_c5_get_source_cache_semantics String fsNoneStr c5Manager 0
      (CachedSource.Open (Source.new 0 "file:///a.typ" "A")) rfl).1
      (Source.new 0 "file:///a.typ" "A") rfl,
    ((spec_c5_get_source_cache_semantics String fsNoneStr c5Manager 1
      (CachedSource.ClosedModified "file:///b.typ") rfl).2.2
      "file:///b.typ" FileError.other rfl rfl).1⟩

/-- A file system where `file:///a.typ` resolves to a path but the file is absent, so
every read fails. -/
def fsAbsentStr : FS String :=
  ⟨fun u => if u = "file:///a.typ" then some "/a.typ" else none, fun _ => none⟩

/-- Claim C2, behaviour at the failing input: `get_id` on a URI whose file is absent on
disk returns `FileError::Other` — not the not-found kind, because
`Source::new_from_file` maps every failure to `Other` (its own TODO says better kinds
should be chosen) — and allocates no id (the error propagates before the push and the
insert, so no state is produced); a subsequent `open` of the same URI on the fresh
manager succeeds and allocates id 0 (the table then holds one entry). -/
theorem spec_c2_absent_file_behaviour :
    SourceManager.get_id fsAbsentStr SourceManager.empty "file:///a.typ" =
      .error FileError.other ∧
    Except.map (fun r => r.2.1)
        (SourceManager.open_ fsAbsentStr SourceManager.empty "file:///a.typ" "content") =
      .ok 0 ∧
    Except.map (fun r => r.2.2.idCount)
        (SourceManager.open_ fsAbsentStr SourceManager.empty "file:///a.typ" "content") =
      .ok 1 :=
  ⟨rfl, rfl, rfl⟩

/-- An index that was set within bounds reads back the written value. -/
theorem list_get_set_same {α : Type} {l : List α} {i : Nat} (v : α)
    (h : i < l.length) : (l.set i v).get? i = some v := by
  induction l generalizing i with
  | nil => simp at h
  | cons x xs ih =>
    cases i with
    | zero => rfl
    | succ j => simpa using ih (by simpa using h)

/-- The manager state after `open("file:///a.typ", "A")` on a fresh manager. -/
def c1M1 : SourceManager String :=
  match SourceManager.open_ fsNoneStr SourceManager.empty "file:///a.typ" "A" with
  | .ok (_, _, m) => m
  | .error _ => SourceManager.empty

/-- The state after `open("file:///a.typ", "A"); close("file:///a.typ")`. -/
def c4M1 : SourceManager String :=
  SourceManager.close fsNoneStr c1M1 "file:///a.typ"

/-- The state after `open("file:///a.typ", "A"); close("file:///a.typ");
open("file:///a.typ", "B")`. -/
def c4M2 : SourceManager String :=
  match SourceManager.open_ fsNoneStr c4M1 "file:///a.typ" "B" with
  | .ok (_, _, m) => m
  | .error _ => SourceManager.empty

/-- Claim C4: `open(uri, text)` unconditionally overwrites a known URI's slot with
`Open(text)` keeping its id (whatever the prior state was), and for an unknown URI
allocates the next id and appends an `Open(text)` slot; the slot afterwards holds
exactly the supplied text.  The unknown case is stated for managers whose slot count
matches the table size and whose table has not reached the `u16` limit, which holds for
every reachable state below 65536 files. -/
theorem spec_c4_open_overwrites (U : Type) [DecidableEq U] (fs : FS U)
    (m : SourceManager U) (uri : U) (text : String) :
    (∀ id, m.uriToId uri = some id →
      SourceManager.open_ fs m uri text =
        .ok (Source.new id uri text, id,
          { m with sources := m.sources.set id (CachedSource.new_open id uri text) }) ∧
      (id < m.sources.length →
        (m.sources.set id (CachedSource.new_open id uri text)).get? id =
          some (CachedSource.new_open id uri text))) ∧
    (m.uriToId uri = none → m.sources.length = m.idCount → m.idCount < 65536 →
      SourceManager.open_ fs m uri text =
        .ok (Source.new m.idCount uri text, m.idCount,
          { uriToId := fun u => if u = uri then some m.idCount else m.uriToId u
            idCount := m.idCount + 1
            sources := m.sources ++ [CachedSource.new_open m.idCount uri text] })) ∧
    Except.map (fun p => p.1.inner.text) (SourceManager.get_source fsNoneStr c4M2 0) =
      .ok "B" := by
  refine ⟨fun id h1 => ⟨?_, fun hlt => list_get_set_same _ hlt⟩, fun h1 hlen hlt => ?_, rfl⟩
  · unfold SourceManager.open_
    rw [h1]
    rfl
  · unfold SourceManager.open_
    rw [h1]
    simp only [Nat.mod_eq_of_lt hlt, CachedSource.new_open]
    have hg : (m.sources ++ [CachedSource.Open (Source.new m.idCount uri text)]).get?
          m.idCount = some (CachedSource.Open (Source.new m.idCount uri text)) := by
      rw [← hlen]
      exact List.get?_concat_length _ _
    unfold SourceManager.get_source
    simp only [hg, CachedSource.cache, CachedSource.get_cached_source, list_set_same hg]

/-- Witness for C4: re-opening `file:///a.typ` (known, id 0, previously closed) with
text "B" overwrites slot 0 with `Open("B")`. -/
theorem spec_c4_witness :
    SourceManager.open_ fsNoneStr c4M1 "file:///a.typ" "B" =
      .ok (Source.new 0 "file:///a.typ" "B", 0,
        { c4M1 with
          sources := c4M1.sources.set 0 (CachedSource.new_open 0 "file:///a.typ" "B") }) ∧
    (c4M1.sources.set 0 (CachedSource.new_open 0 "file:///a.typ" "B")).get? 0 =
      some (CachedSource.new_open 0 "file:///a.typ" "B") :=
  ⟨((spec_c4_open_overwrites String fsNoneStr c4M1 "file:///a.typ" "B").1 0 rfl).1,
    ((spec_c4_open_overwrites String fsNoneStr c4M1 "file:///a.typ" "B").1 0 rfl).2
      (by decide)⟩

/-- Claim C1, amended: `close(uri)` on a known URI whose slot holds a cached source
(`Open` or `ClosedUnmodified`) leaves the slot `ClosedUnmodified` with that source — the
cached text is retained, the slot only transiently passing through `ClosedModified`; a
known `ClosedModified` slot stays `ClosedModified` (with the argument URI written back);
and for an unknown URI `close` is not a no-op: it first registers the URI via `get_id`,
loading the file from disk into a new `ClosedUnmodified` slot, and only if that load
fails does it leave the manager unchanged. -/
theorem spec_c1_close_amended (U : Type) [DecidableEq U] (fs : FS U)
    (m : SourceManager U) (uri : U) :
    (∀ id slot, m.uriToId uri = some id → m.sources.get? id = some slot →
      (∀ src, CachedSource.take_cached_source slot = some src →
        SourceManager.close fs m uri =
          { m with sources := m.sources.set id (CachedSource.ClosedUnmodified src) }) ∧
      (CachedSource.take_cached_source slot = none →
        SourceManager.close fs m uri =
          { m with sources := m.sources.set id (CachedSource.ClosedModified uri) })) ∧
    (∀ e, m.uriToId uri = none →
      Source.new_from_file fs (m.idCount % 65536) uri = .error e →
      SourceManager.close fs m uri = m) ∧
    (∀ src, m.uriToId uri = none → m.sources.length = m.idCount → m.idCount < 65536 →
      Source.new_from_file fs m.idCount uri = .ok src →
      SourceManager.close fs m uri =
        { uriToId := fun u => if u = uri then some m.idCount else m.uriToId u
          idCount := m.idCount + 1
          sources := m.sources ++ [CachedSource.ClosedUnmodified src] }) := by
  refine ⟨fun id slot h1 h2 => ⟨fun src hs => ?_, fun hs => ?_⟩,
    fun e h1 he => ?_, fun src h1 hlen hlt hf => ?_⟩
  · unfold SourceManager.close SourceManager.get_id
    rw [h1]
    simp only [h2, hs, List.set_set]
  · unfold SourceManager.close SourceManager.get_id
    rw [h1]
    simp only [h2, hs]
  · unfold SourceManager.close SourceManager.get_id
    rw [h1]
    simp only [he]
  · unfold SourceManager.close SourceManager.get_id
    rw [h1]
    simp only [Nat.mod_eq_of_lt hlt, hf]
    have hg : (m.sources ++ [CachedSource.ClosedUnmodified src]).get? m.idCount =
        some (CachedSource.ClosedUnmodified src) := by
      rw [← hlen]
      exact List.get?_concat_length _ _
    simp only [hg, CachedSource.take_cached_source, List.set_set, list_set_same hg]

/-- A file system holding exactly one file, `file:///b.typ`, with text "disk". -/
def fsOneStr : FS String :=
  ⟨fun u => if u = "file:///b.typ" then some "/b.typ" else none,
    fun p => if p = "/b.typ" then some "disk" else none⟩

/-- Claim C1, counterexample: after `open("file:///a.typ", "A")`, the slot is Open; the
claim says `close` moves it to `ClosedModified` discarding the cached text, but the code
leaves it `ClosedUnmodified` still holding "A".  And for a URI unknown to the manager
whose file exists on disk, the claim says `close` is a no-op, but the code registers the
URI (allocating id 0 and loading the file). -/
theorem spec_c1_counterexample :
    (SourceManager.close fsNoneStr c1M1 "file:///a.typ").sources.get? 0 =
      some (CachedSource.ClosedUnmodified (Source.new 0 "file:///a.typ" "A")) ∧
    (SourceManager.close fsOneStr SourceManager.empty "file:///b.typ").idCount = 1 ∧
    (SourceManager.close fsOneStr SourceManager.empty "file:///b.typ").uriToId
        "file:///b.typ" = some 0 :=
  ⟨rfl, rfl, rfl⟩

/-- Witness for the amended C1 at the concrete Open slot. -/
theorem spec_c1_witness :
    SourceManager.close fsNoneStr c1M1 "file:///a.typ" =
      { c1M1 with
        sources := c1M1.sources.set 0
          (CachedSource.ClosedUnmodified (Source.new 0 "file:///a.typ" "A")) } :=
  (((spec_c1_close_amended String fsNoneStr c1M1 "file:///a.typ").1 0
      (CachedSource.Open (Source.new 0 "file:///a.typ" "A")) rfl rfl).1
    (Source.new 0 "file:///a.typ" "A") rfl)

theorem firstIdx_append_some {U : Type} [DecidableEq U] {l : List U} {u : U} {k : Nat}
    (h : firstIdx l u = some k) (l₂ : List U) : firstIdx (l ++ l₂) u = some k := by
  induction l generalizing k with
  | nil => simp [firstIdx] at h
  | cons x xs ih =>
    rw [List.cons_append]
    unfold firstIdx at h ⊢
    by_cases hx : u = x
    · simpa [hx] using h
    · simp only [if_neg hx] at h ⊢
      obtain ⟨k', hk', rfl⟩ := Option.map_eq_some'.mp h
      rw [ih hk']
      rfl

theorem firstIdx_append_singleton_none {U : Type} [DecidableEq U] {l : List U} {u : U}
    (h : firstIdx l u = none) (v : U) :
    firstIdx (l ++ [v]) u = if u = v then some l.length else none := by
  induction l with
  | nil => simp [firstIdx]
  | cons x xs ih =>
    unfold firstIdx at h
    by_cases hx : u = x
    · simp [hx] at h
    · simp only [if_neg hx, Option.map_eq_none'] at h
      rw [List.cons_append]
      unfold firstIdx
      rw [if_neg hx, ih h]
      by_cases hv : u = v
      · simp [hv]
      · simp [hv]

theorem firstIdx_get {U : Type} [DecidableEq U] {l : List U} {u : U} {k : Nat}
    (h : firstIdx l u = some k) : l.get? k = some u := by
  induction l generalizing k with
  | nil => simp [firstIdx] at h
  | cons x xs ih =>
    unfold firstIdx at h
    by_cases hx : u = x
    · rw [if_pos hx] at h
      cases h
      simp [hx]
    · rw [if_neg hx] at h
      obtain ⟨k', hk', rfl⟩ := Option.map_eq_some'.mp h
      simpa using ih hk'

theorem firstIdx_lt_length {U : Type} [DecidableEq U] {l : List U} {u : U} {k : Nat}
    (h : firstIdx l u = some k) : k < l.length := by
  obtain ⟨hlt, -⟩ := List.get?_eq_some.mp (firstIdx_get h)
  exact hlt

theorem regInv_empty {U : Type} [DecidableEq U] :
    RegInv (SourceManager.empty : SourceManager U) :=
  ⟨[], rfl, fun _ => rfl⟩

theorem regInv_congr {U : Type} [DecidableEq U] {m m' : SourceManager U}
    (h1 : m'.uriToId = m.uriToId) (h2 : m'.idCount = m.idCount) (h : RegInv m) :
    RegInv m' := by
  obtain ⟨l, a, b⟩ := h
  exact ⟨l, by rw [h2, a], fun u => by rw [h1]; exact b u⟩

/-- Registering a fresh URI extends the order list by that URI. -/
theorem regInv_extend {U : Type} [DecidableEq U] {m : SourceManager U} (uri : U)
    (h : RegInv m) (hu : m.uriToId uri = none) (newSources : List (CachedSource U)) :
    RegInv
      { uriToId := fun u => if u = uri then some (m.idCount % 65536) else m.uriToId u
        idCount := m.idCount + 1
        sources := newSources } := by
  obtain ⟨l, hlen, hmap⟩ := h
  refine ⟨l ++ [uri], by simp [hlen], fun u => ?_⟩
  have hnone : firstIdx l uri = none := by
    have hx := hmap uri
    rw [hu] at hx
    exact Option.map_eq_none'.mp hx.symm
  by_cases hx : u = uri
  · subst hx
    simp only [if_pos rfl]
    rw [firstIdx_append_singleton_none hnone, if_pos rfl]
    simp [hlen]
  · simp only [if_neg hx]
    rw [hmap u]
    cases hf : firstIdx l u with
    | some k => rw [firstIdx_append_some hf [uri]]
    | none => rw [firstIdx_append_singleton_none hf uri, if_neg hx]

/-- A successful `get_source` changes neither the URI table nor the id count. -/
theorem get_source_table_eq {U : Type} {fs : FS U} {m m' : SourceManager U} {id : Nat}
    {src : Source U} (h : SourceManager.get_source fs m id = .ok (src, m')) :
    m'.uriToId = m.uriToId ∧ m'.idCount = m.idCount := by
  unfold SourceManager.get_source at h
  split at h
  · simp at h
  · split at h
    · simp at h
    · split at h
      · simp only [Except.ok.injEq, Prod.mk.injEq] at h
        obtain ⟨-, h2⟩ := h
        rw [← h2]
        exact ⟨rfl, rfl⟩
      · simp at h

/-- A vacant `open` extends the table by the fresh URI at the next id. -/
theorem open_vacant_table {U : Type} [DecidableEq U] {fs : FS U} {m m' : SourceManager U}
    {uri : U} {text : String} {src : Source U} {id : Nat}
    (hu : m.uriToId uri = none)
    (ho : SourceManager.open_ fs m uri text = .ok (src, id, m')) :
    m'.uriToId = (fun u => if u = uri then some (m.idCount % 65536) else m.uriToId u) ∧
      m'.idCount = m.idCount + 1 := by
  unfold SourceManager.open_ at ho
  split at ho
  · split at ho
    · rename_i source m'' heq
      simp only [Except.ok.injEq, Prod.mk.injEq] at ho
      obtain ⟨-, -, h3⟩ := ho
      obtain ⟨ht, hc⟩ := get_source_table_eq heq
      rw [← h3]
      exact ⟨ht, hc⟩
    · simp at ho
  · rename_i id0 heq
    rw [hu] at heq
    cases heq

/-- One `get_id` or `open` step preserves the registration invariant. -/
theorem regInv_applyOp {U : Type} [DecidableEq U] {fs : FS U} {m : SourceManager U}
    (op : Op U) (h : RegInv m) : RegInv (applyOp fs m op) := by
  cases op with
  | getId uri =>
    simp only [applyOp]
    cases hg : SourceManager.get_id fs m uri with
    | error e => exact h
    | ok p =>
      obtain ⟨id, m'⟩ := p
      unfold SourceManager.get_id at hg
      split at hg
      · simp only [Except.ok.injEq, Prod.mk.injEq] at hg
        obtain ⟨-, h2⟩ := hg
        exact h2 ▸ h
      · rename_i hu
        split at hg
        · simp at hg
        · simp only [Except.ok.injEq, Prod.mk.injEq] at hg
          obtain ⟨-, h2⟩ := hg
          exact h2 ▸ regInv_extend uri h hu _
  | openOp uri text =>
    simp only [applyOp]
    cases ho : SourceManager.open_ fs m uri text with
    | error e => exact h
    | ok p =>
      obtain ⟨src, id, m'⟩ := p
      cases hu : m.uriToId uri with
      | none =>
        obtain ⟨ht, hc⟩ := open_vacant_table hu ho
        exact regInv_congr ht hc (regInv_extend uri h hu m.sources)
      | some id0 =>
        unfold SourceManager.open_ at ho
        rw [hu] at ho
        simp only [CachedSource.new_open, CachedSource.get_cached_source,
          Except.ok.injEq, Prod.mk.injEq] at ho
        obtain ⟨-, -, h3⟩ := ho
        exact h3 ▸ regInv_congr rfl rfl h

/-- One `get_id` or `open` step never changes an existing table entry. -/
theorem applyOp_preserves_entry {U : Type} [DecidableEq U] {fs : FS U}
    {m : SourceManager U} {u : U} {id : Nat} (op : Op U) (h : m.uriToId u = some id) :
    (applyOp fs m op).uriToId u = some id := by
  cases op with
  | getId uri =>
    simp only [applyOp]
    cases hg : SourceManager.get_id fs m uri with
    | error e => exact h
    | ok p =>
      obtain ⟨id', m'⟩ := p
      unfold SourceManager.get_id at hg
      split at hg
      · simp only [Except.ok.injEq, Prod.mk.injEq] at hg
        obtain ⟨-, h2⟩ := hg
        exact h2 ▸ h
      · rename_i hu
        split at hg
        · simp at hg
        · simp only [Except.ok.injEq, Prod.mk.injEq] at hg
          obtain ⟨-, h2⟩ := hg
          have hne : u ≠ uri := fun he => by rw [he, hu] at h; cases h
          have : ((fun v => if v = uri then some (m.idCount % 65536) else m.uriToId v) :
              U → Option Nat) u = some id := by
            simp only [if_neg hne]
            exact h
          exact h2 ▸ this
  | openOp uri text =>
    simp only [applyOp]
    cases ho : SourceManager.open_ fs m uri text with
    | error e => exact h
    | ok p =>
      obtain ⟨src, id', m'⟩ := p
      cases hu : m.uriToId uri with
      | none =>
        obtain ⟨ht, -⟩ := open_vacant_table hu ho
        show m'.uriToId u = some id
        rw [ht]
        have hne : u ≠ uri := fun he => by rw [he, hu] at h; cases h
        simp only [if_neg hne]
        exact h
      | some id0 =>
        unfold SourceManager.open_ at ho
        rw [hu] at ho
        simp only [CachedSource.new_open, CachedSource.get_cached_source,
          Except.ok.injEq, Prod.mk.injEq] at ho
        obtain ⟨-, -, h3⟩ := ho
        exact h3 ▸ h

theorem regInv_applyOps {U : Type} [DecidableEq U] {fs : FS U} {m : SourceManager U}
    (ops : List (Op U)) (h : RegInv m) : RegInv (applyOps fs m ops) := by
  induction ops generalizing m with
  | nil => exact h
  | cons op rest ih => exact ih (regInv_applyOp op h)

theorem applyOps_preserves_entry {U : Type} [DecidableEq U] {fs : FS U}
    {m : SourceManager U} {u : U} {id : Nat} (ops : List (Op U))
    (h : m.uriToId u = some id) : (applyOps fs m ops).uriToId u = some id := by
  induction ops generalizing m with
  | nil => exact h
  | cons op rest ih => exact ih (applyOp_preserves_entry op h)

/-- Claim C9, amended: across every sequence of `get_id` and `open` operations from the
empty manager, the URI table satisfies the registration invariant (each URI's id is its
registration rank reduced `% 65536`, since `SourceId(ids.len() as u16)` truncates to
`u16`); an id once assigned to a URI is never changed by later operations; and two
distinct registered URIs have distinct ids whenever at most 65536 URIs are registered —
beyond that the `u16` handle wraps around and ids are reused for new URIs. -/
theorem spec_c9_amended (U : Type) [DecidableEq U] (fs : FS U) (ops more : List (Op U))
    (u1 u2 : U) (id1 id2 : Nat) :
    RegInv (applyOps fs SourceManager.empty ops) ∧
    ((applyOps fs SourceManager.empty ops).uriToId u1 = some id1 →
      (applyOps fs (applyOps fs SourceManager.empty ops) more).uriToId u1 = some id1 ∧
        ((applyOps fs SourceManager.empty ops).uriToId u2 = some id2 →
          (applyOps fs SourceManager.empty ops).idCount ≤ 65536 →
          u1 ≠ u2 → id1 ≠ id2)) := by
  have hinv : RegInv (applyOps fs SourceManager.empty ops) :=
    regInv_applyOps ops regInv_empty
  refine ⟨hinv, fun h1 => ⟨applyOps_preserves_entry more h1, fun h2 hle hne => ?_⟩⟩
  obtain ⟨l, hlen, hmap⟩ := hinv
  have e1 := hmap u1
  rw [h1] at e1
  have e2 := hmap u2
  rw [h2] at e2
  obtain ⟨k1, hk1, hid1⟩ := Option.map_eq_some'.mp e1.symm
  obtain ⟨k2, hk2, hid2⟩ := Option.map_eq_some'.mp e2.symm
  have hb : l.length ≤ 65536 := hlen ▸ hle
  have b1 : k1 < 65536 := lt_of_lt_of_le (firstIdx_lt_length hk1) hb
  have b2 : k2 < 65536 := lt_of_lt_of_le (firstIdx_lt_length hk2) hb
  rw [← hid1, ← hid2, Nat.mod_eq_of_lt b1, Nat.mod_eq_of_lt b2]
  intro hkk
  apply hne
  have g1 := firstIdx_get hk1
  have g2 := firstIdx_get hk2
  rw [hkk, g2] at g1
  exact (Option.some.injEq _ _ ▸ g1).symm

/-- Two fresh opens, for the C9 witness. -/
def c9Ops : List (Op Nat) :=
  [Op.openOp 7 "x", Op.openOp 8 "y"]

/-- Witness for the amended C9: after opening URIs 7 and 8 they carry ids 0 and 1, id 0
survives a further `get_id`, and the two ids are distinct. -/
theorem spec_c9_witness :
    (applyOps fsNoneNat (applyOps fsNoneNat SourceManager.empty c9Ops)
        [Op.getId 7]).uriToId 7 = some 0 ∧
      (0 : Nat) ≠ 1 :=
  have h := (spec_c9_amended Nat fsNoneNat c9Ops [Op.getId 7] 7 8 0 1).2 rfl
  ⟨h.1, h.2 rfl (by decide) (by decide)⟩

/-- A file system on which every file exists (with text "t"). -/
def fsAllNat : FS Nat :=
  ⟨fun _ => some "p", fun _ => some "t"⟩

/-- The operation sequence registering URIs `0, 1, ..., n-1` in order via `get_id`. -/
def rangeGetIds (n : Nat) : List (Op Nat) :=
  (List.range n).map Op.getId

/-- Registering URIs `0..n-1` in order assigns URI `u` the id `u % 65536`. -/
theorem applyOps_rangeGetIds (n : Nat) :
    (applyOps fsAllNat SourceManager.empty (rangeGetIds n)).uriToId =
      (fun u => if u < n then some (u % 65536) else none) ∧
    (applyOps fsAllNat SourceManager.empty (rangeGetIds n)).idCount = n := by
  induction n with
  | zero =>
    constructor
    · funext u
      simp [applyOps, rangeGetIds, SourceManager.empty]
    · rfl
  | succ n ih =>
    obtain ⟨hmap, hcount⟩ := ih
    have hr : rangeGetIds (n + 1) = rangeGetIds n ++ [Op.getId n] := by
      unfold rangeGetIds
      rw [List.range_succ, List.map_append]
      rfl
    rw [hr]
    unfold applyOps at *
    rw [List.foldl_append]
    set m := List.foldl (applyOp fsAllNat) SourceManager.empty (rangeGetIds n) with hm
    have hu : m.uriToId n = none := by
      rw [hmap]
      simp
    have hstep : List.foldl (applyOp fsAllNat) m [Op.getId n] =
        applyOp fsAllNat m (Op.getId n) := rfl
    have ht : (applyOp fsAllNat m (Op.getId n)).uriToId =
        fun u => if u = n then some (m.idCount % 65536) else m.uriToId u := by
      simp only [applyOp]
      unfold SourceManager.get_id
      rw [hu]
      rfl
    have hc : (applyOp fsAllNat m (Op.getId n)).idCount = m.idCount + 1 := by
      simp only [applyOp]
      unfold SourceManager.get_id
      rw [hu]
      rfl
    constructor
    · rw [hstep, ht]
      simp only [hcount, hmap]
      funext u
      by_cases hun : u = n
      · subst hun
        simp [Nat.lt_succ_self]
      · rw [if_neg hun]
        by_cases hlt : u < n
        · rw [if_pos hlt, if_pos (Nat.lt_succ_of_lt hlt)]
        · rw [if_neg hlt, if_neg (by omega)]
    · rw [hstep, hc, hcount]

/-- Claim C9, counterexample: after registering the 65537 distinct URIs `0..65536`,
both URI `0` and URI `65536` carry SourceId `0` — `SourceId(ids.len() as u16)` wraps at
2^16, so an id already returned for one URI is reused for a different URI, refuting
"never reused for nor reassigned to a different URI". -/
theorem spec_c9_counterexample :
    (applyOps fsAllNat SourceManager.empty (rangeGetIds 65537)).uriToId 0 = some 0 ∧
    (applyOps fsAllNat SourceManager.empty (rangeGetIds 65537)).uriToId 65536 = some 0 ∧
    (0 : Nat) ≠ 65536 := by
  obtain ⟨hmap, -⟩ := applyOps_rangeGetIds 65537
  refine ⟨?_, ?_, by decide⟩
  · rw [hmap]
    norm_num
  · rw [hmap]
    norm_num
